import Mathlib

/-!
Shallow embedding of the z3.rs binding layer (src/z3/src/model.rs and
src/z3/src/tactic.rs) for verification of its handle-lifecycle and
FFI-boundary behaviour.

The native engine is opaque: we model raw native pointers as natural
numbers with `0` playing the role of the null pointer, contexts as
natural-number identities, and every native call as a field of an oracle
structure `Z3Native`.  The engine's reference counts, which the binding
manipulates through `Z3_*_inc_ref` / `Z3_*_dec_ref`, are modelled as an
explicit state `RefCounts` threaded through the operations that touch
them.
-/

namespace Z3

/-- Raw native pointer; `0` is the null pointer (`is_null`). -/
abbrev Ptr := Nat

/-- Identity of a native context (`z3_ctx`). -/
abbrev Ctx := Nat

/-- Handle over a native model object (struct `Model { ctx, z3_mdl }`). -/
structure Model where
  ctx : Ctx
  z3_mdl : Ptr
  deriving DecidableEq, Repr

/-- Handle over a native tactic object (struct `Tactic { ctx, z3_tactic }`). -/
structure Tactic where
  ctx : Ctx
  z3_tactic : Ptr
  deriving DecidableEq, Repr

/-- Handle over a native apply-result (struct `ApplyResult { ctx, z3_apply_result }`). -/
structure ApplyResult where
  ctx : Ctx
  z3_apply_result : Ptr
  deriving DecidableEq, Repr

/-- Handle over a native goal object (struct `Goal { ctx, z3_goal }`, declared
outside the two files but used by them). -/
structure Goal where
  ctx : Ctx
  z3_goal : Ptr
  deriving DecidableEq, Repr

/-- Handle over a native function declaration (struct `FuncDecl`). -/
structure FuncDecl where
  ctx : Ctx
  z3_func_decl : Ptr
  deriving DecidableEq, Repr

/-- Handle over a native function interpretation (struct `FuncInterp`). -/
structure FuncInterp where
  ctx : Ctx
  z3_interp : Ptr
  deriving DecidableEq, Repr

/-- Handle over a native solver (external collaborator; only its raw fields
are read by the code under verification). -/
structure Solver where
  ctx : Ctx
  z3_slv : Ptr
  deriving DecidableEq, Repr

/-- Handle over a native optimizer (external collaborator). -/
structure Optimize where
  ctx : Ctx
  z3_opt : Ptr
  deriving DecidableEq, Repr

/-- Handle over a native parameter object (external collaborator). -/
structure Params where
  ctx : Ctx
  z3_params : Ptr
  deriving DecidableEq, Repr

/-- Handle over a native probe (external collaborator). -/
structure Probe where
  ctx : Ctx
  z3_probe : Ptr
  deriving DecidableEq, Repr

/-- Handle over a native AST node (an `Ast`-trait object; only its raw
pointer and its `safe_decl` answer are consumed by the code shown). -/
structure AstH where
  ctx : Ctx
  z3_ast : Ptr
  deriving DecidableEq, Repr

/-- The engine's per-object reference counts, keyed by the (context, pointer)
pair, one counter family per native object kind manipulated by the two
files.  `Z3_model_inc_ref` and friends act on this state. -/
structure RefCounts where
  modelRC : Ctx → Ptr → Int
  tacticRC : Ctx → Ptr → Int
  applyResultRC : Ctx → Ptr → Int
  goalRC : Ctx → Ptr → Int

/-- Adjust a counter family by `d` at exactly the key `(c, p)`. -/
def bump (f : Ctx → Ptr → Int) (c : Ctx) (p : Ptr) (d : Int) : Ctx → Ptr → Int :=
  fun c' p' => if c' = c ∧ p' = p then f c' p' + d else f c' p'

/-- A concrete all-zero reference-count state, for concrete evaluations. -/
def rc0 : RefCounts :=
  ⟨fun _ _ => 0, fun _ _ => 0, fun _ _ => 0, fun _ _ => 0⟩

/-- `Model::wrap`: perform exactly one `Z3_model_inc_ref` on the wrapped
(context, pointer) pair and return the handle. -/
def Model.wrap (rc : RefCounts) (ctx : Ctx) (z3_mdl : Ptr) : RefCounts × Model :=
  ({ rc with modelRC := bump rc.modelRC ctx z3_mdl 1 }, ⟨ctx, z3_mdl⟩)

/-- `impl Drop for Model`: exactly one `Z3_model_dec_ref` on the handle's
(context, pointer) pair. -/
def Model.drop (rc : RefCounts) (m : Model) : RefCounts :=
  { rc with modelRC := bump rc.modelRC m.ctx m.z3_mdl (-1) }

/-- `Tactic::wrap`: exactly one `Z3_tactic_inc_ref`. -/
def Tactic.wrap (rc : RefCounts) (ctx : Ctx) (z3_tactic : Ptr) : RefCounts × Tactic :=
  ({ rc with tacticRC := bump rc.tacticRC ctx z3_tactic 1 }, ⟨ctx, z3_tactic⟩)

/-- `impl Drop for Tactic`: exactly one `Z3_tactic_dec_ref`. -/
def Tactic.drop (rc : RefCounts) (t : Tactic) : RefCounts :=
  { rc with tacticRC := bump rc.tacticRC t.ctx t.z3_tactic (-1) }

/-- `ApplyResult::wrap`: exactly one `Z3_apply_result_inc_ref`. -/
def ApplyResult.wrap (rc : RefCounts) (ctx : Ctx) (z3_apply_result : Ptr) :
    RefCounts × ApplyResult :=
  ({ rc with applyResultRC := bump rc.applyResultRC ctx z3_apply_result 1 },
   ⟨ctx, z3_apply_result⟩)

/-- `impl Drop for ApplyResult`: exactly one `Z3_apply_result_dec_ref`. -/
def ApplyResult.drop (rc : RefCounts) (a : ApplyResult) : RefCounts :=
  { rc with applyResultRC := bump rc.applyResultRC a.ctx a.z3_apply_result (-1) }

/-- Modelled from the spec: `Goal::wrap` lives in `goal.rs`, which is not
among the two source files; per the handle-lifecycle contract (spec §4.1)
it performs exactly one native reference-count increment on the wrapped
(context, pointer) pair. -/
def Goal.wrap (rc : RefCounts) (ctx : Ctx) (z3_goal : Ptr) : RefCounts × Goal :=
  ({ rc with goalRC := bump rc.goalRC ctx z3_goal 1 }, ⟨ctx, z3_goal⟩)

/-- Construct a model handle on `(c, p)` and immediately drop it. -/
def Model.wrapDrop (c : Ctx) (p : Ptr) (rc : RefCounts) : RefCounts :=
  let (rc', m) := Model.wrap rc c p
  Model.drop rc' m

/-- Construct a tactic handle on `(c, p)` and immediately drop it. -/
def Tactic.wrapDrop (c : Ctx) (p : Ptr) (rc : RefCounts) : RefCounts :=
  let (rc', t) := Tactic.wrap rc c p
  Tactic.drop rc' t

/-- Construct an apply-result handle on `(c, p)` and immediately drop it. -/
def ApplyResult.wrapDrop (c : Ctx) (p : Ptr) (rc : RefCounts) : RefCounts :=
  let (rc', a) := ApplyResult.wrap rc c p
  ApplyResult.drop rc' a

/-- Kinds of native sorts, as classified by `Z3_get_sort_kind`;
only `array` is distinguished by the code under verification. -/
inductive SortKind where
  | boolS
  | intS
  | realS
  | bvS
  | array
  | other
  deriving DecidableEq, Repr

/-- Oracle for the native engine's pure answers.  Each field models one
native entry point (or one external-collaborator method) called by the two
source files; a returned `Ptr` of `0` is the null pointer.  `C` strings are
byte lists; `get_error_msg` yields `none` when the message bytes are not
valid UTF-8, and `ast_safe_decl` yields `none` when `Ast::safe_decl`
returns `Err`. -/
structure Z3Native where
  solver_get_model : Ctx → Ptr → Ptr
  optimize_get_model : Ctx → Ptr → Ptr
  model_translate : Ctx → Ptr → Ctx → Ptr
  mk_tactic : Ctx → List Nat → Ptr
  tactic_try_for : Ctx → Ptr → Nat → Ptr
  tactic_apply : Ctx → Ptr → Ptr → Ptr
  tactic_apply_ex : Ctx → Ptr → Ptr → Ptr → Ptr
  get_error_code : Ctx → Nat
  get_error_msg : Ctx → Nat → Option String
  model_get_const_interp : Ctx → Ptr → Ptr → Ptr
  model_get_func_interp : Ctx → Ptr → Ptr → Ptr
  get_range : Ctx → Ptr → Ptr
  get_sort_kind : Ctx → Ptr → SortKind
  is_as_array : Ctx → Ptr → Bool
  get_as_array_func_decl : Ctx → Ptr → Ptr
  func_decl_arity : Ptr → Nat
  ast_safe_decl : Ptr → Option Ptr
  apply_result_get_num_subgoals : Ctx → Ptr → Nat
  apply_result_get_subgoal : Ctx → Ptr → Nat → Ptr
  model_get_num_consts : Ctx → Ptr → Nat
  model_get_num_funcs : Ctx → Ptr → Nat
  model_get_const_decl : Ctx → Ptr → Nat → Ptr
  model_get_func_decl : Ctx → Ptr → Nat → Ptr

/-- An all-zero oracle, used as the base for concrete test oracles. -/
def zeroNative : Z3Native where
  solver_get_model := fun _ _ => 0
  optimize_get_model := fun _ _ => 0
  model_translate := fun _ _ _ => 0
  mk_tactic := fun _ _ => 0
  tactic_try_for := fun _ _ _ => 0
  tactic_apply := fun _ _ _ => 0
  tactic_apply_ex := fun _ _ _ _ => 0
  get_error_code := fun _ => 0
  get_error_msg := fun _ _ => none
  model_get_const_interp := fun _ _ _ => 0
  model_get_func_interp := fun _ _ _ => 0
  get_range := fun _ _ => 0
  get_sort_kind := fun _ _ => SortKind.other
  is_as_array := fun _ _ => false
  get_as_array_func_decl := fun _ _ => 0
  func_decl_arity := fun _ => 0
  ast_safe_decl := fun _ => none
  apply_result_get_num_subgoals := fun _ _ => 0
  apply_result_get_subgoal := fun _ _ _ => 0
  model_get_num_consts := fun _ _ => 0
  model_get_num_funcs := fun _ _ => 0
  model_get_const_decl := fun _ _ _ => 0
  model_get_func_decl := fun _ _ _ => 0

/-- `Model::of_solver`: query the solver's model, return `None` on null,
otherwise wrap. -/
def Model.of_solver (n : Z3Native) (rc : RefCounts) (slv : Solver) :
    RefCounts × Option Model :=
  let m := n.solver_get_model slv.ctx slv.z3_slv
  if m = 0 then (rc, none)
  else
    let (rc', h) := Model.wrap rc slv.ctx m
    (rc', some h)

/-- `Model::of_optimize`: query the optimizer's model, return `None` on
null, otherwise wrap. -/
def Model.of_optimize (n : Z3Native) (rc : RefCounts) (opt : Optimize) :
    RefCounts × Option Model :=
  let m := n.optimize_get_model opt.ctx opt.z3_opt
  if m = 0 then (rc, none)
  else
    let (rc', h) := Model.wrap rc opt.ctx m
    (rc', some h)

/-- `Model::translate`: translate the model to context `dest` and wrap the
returned pointer unconditionally (the source performs no null check). -/
def Model.translate (n : Z3Native) (rc : RefCounts) (m : Model) (dest : Ctx) :
    RefCounts × Model :=
  let model := n.model_translate m.ctx m.z3_mdl dest
  Model.wrap rc dest model

/-- `Model::get_const_interp`: resolve the expression's declaration with
`Ast::safe_decl` (external collaborator returning a `Result`; `none` models
`Err`), turning a resolution failure into `None` through `.ok()?`; then
look up the constant interpretation, returning `None` on a null answer and
wrapping it otherwise (`T::wrap` is external and modelled as plain handle
construction). -/
def Model.get_const_interp (n : Z3Native) (m : Model) (ast : AstH) : Option AstH :=
  match n.ast_safe_decl ast.z3_ast with
  | none => none
  | some func =>
    let ret := n.model_get_const_interp m.ctx m.z3_mdl func
    if ret = 0 then none else some ⟨m.ctx, ret⟩

/-- `Model::get_func_interp`, with an explicit recursion budget `fuel`
because the source recursion has no structural bound: `none` means the
budget ran out before the source function returned, `some r` means the
source returns `r`.  For arity 0 the constant interpretation is inspected
and an array-sorted as-array value is resolved recursively through
`Z3_get_as_array_func_decl`; for positive arity the tabulated function
interpretation is looked up.  (`FuncDecl::wrap` / `FuncInterp::wrap` are
external and modelled as plain handle construction.) -/
def Model.get_func_interp_fuel (n : Z3Native) (m : Model) :
    Nat → FuncDecl → Option (Option FuncInterp)
  | 0, _ => none
  | fuel + 1, f =>
    if n.func_decl_arity f.z3_func_decl = 0 then
      let ret := n.model_get_const_interp m.ctx m.z3_mdl f.z3_func_decl
      if ret = 0 then some none
      else
        match n.get_sort_kind m.ctx (n.get_range m.ctx f.z3_func_decl) with
        | SortKind.array =>
          if n.is_as_array m.ctx ret then
            Model.get_func_interp_fuel n m fuel
              ⟨m.ctx, n.get_as_array_func_decl m.ctx ret⟩
          else some none
        | _ => some none
    else
      let ret := n.model_get_func_interp m.ctx m.z3_mdl f.z3_func_decl
      if ret = 0 then some none else some (some ⟨m.ctx, ret⟩)

/-- The as-array successor of `f` in `Model::get_func_interp`: `some f'`
when the arity-0 / non-null / array-sorted / as-array branch is taken and
the source recurses on `f'`; `none` when the source returns without
recursing. -/
def recursesTo (n : Z3Native) (m : Model) (f : FuncDecl) : Option FuncDecl :=
  if n.func_decl_arity f.z3_func_decl = 0 then
    let ret := n.model_get_const_interp m.ctx m.z3_mdl f.z3_func_decl
    if ret = 0 then none
    else
      match n.get_sort_kind m.ctx (n.get_range m.ctx f.z3_func_decl) with
      | SortKind.array =>
        if n.is_as_array m.ctx ret then
          some ⟨m.ctx, n.get_as_array_func_decl m.ctx ret⟩
        else none
      | _ => none
  else none

/-- The engine-provided as-array chain starting at `f` reaches, within `k`
recursion steps, a declaration at which the source returns (the chain is
finite and acyclic below `k`). -/
def chainStops (n : Z3Native) (m : Model) : Nat → FuncDecl → Bool
  | 0, f => (recursesTo n m f).isNone
  | k + 1, f =>
    match recursesTo n m f with
    | none => true
    | some f' => chainStops n m k f'

/-- A concrete oracle whose as-array chain is a self-loop: every
declaration has arity 0, a non-null constant interpretation (pointer `1`)
of array sort that is an as-array value whose underlying declaration is
pointer `7` again. -/
def cyclicNative : Z3Native :=
  { zeroNative with
    model_get_const_interp := fun _ _ _ => 1
    get_sort_kind := fun _ _ => SortKind.array
    is_as_array := fun _ _ => true
    get_as_array_func_decl := fun _ _ => 7 }

/-- One past `u32::MAX`: the modulus of 32-bit unsigned arithmetic. -/
def u32Mod : Nat := 4294967296

/-- `Model::len`: the sum of the native constant and function counts,
queried at call time.  The source adds two `u32` values into a `u32`, so
when the true sum exceeds `u32::MAX` the addition wraps modulo `2^32`
(release builds; debug builds panic instead) — the wrapping semantics is
embedded. -/
def Model.len (n : Z3Native) (m : Model) : Nat :=
  (n.model_get_num_consts m.ctx m.z3_mdl + n.model_get_num_funcs m.ctx m.z3_mdl) % u32Mod

/-- struct `ModelIter`: a borrowed model plus a cursor and the total length
captured when iteration started. -/
structure ModelIter where
  model : Model
  idx : Nat
  len : Nat
  deriving DecidableEq, Repr

/-- `IntoIterator for &Model` / `Model::iter`: start at index 0 with the
length computed eagerly once. -/
def Model.intoIter (n : Z3Native) (m : Model) : ModelIter :=
  ⟨m, 0, Model.len n m⟩

/-- `ModelIter::next`: finished once `idx >= len`; otherwise re-query the
native constant count and yield either the constant declaration at `idx`
or the function declaration at `idx - num_consts`, advancing the cursor.
(`FuncDecl::wrap` is external and modelled as plain handle construction.) -/
def ModelIter.next (n : Z3Native) (it : ModelIter) : Option (FuncDecl × ModelIter) :=
  if it.len ≤ it.idx then none
  else
    let num_consts := n.model_get_num_consts it.model.ctx it.model.z3_mdl
    if it.idx < num_consts then
      some (⟨it.model.ctx, n.model_get_const_decl it.model.ctx it.model.z3_mdl it.idx⟩,
            ⟨it.model, it.idx + 1, it.len⟩)
    else
      some (⟨it.model.ctx,
             n.model_get_func_decl it.model.ctx it.model.z3_mdl (it.idx - num_consts)⟩,
            ⟨it.model, it.idx + 1, it.len⟩)

/-- Pull the iterator to exhaustion, collecting every yielded item.  The
oracle may differ from step to step (`f k` answers the `k`-th pull),
modelling native counts that change mid-iteration. -/
def ModelIter.run (f : Nat → Z3Native) (k : Nat) (it : ModelIter) : List FuncDecl :=
  match h : ModelIter.next (f k) it with
  | none => []
  | some (d, it') => d :: ModelIter.run f (k + 1) it'
termination_by it.len - it.idx
decreasing_by
  simp only [ModelIter.next] at h
  split at h
  · simp at h
  · split at h <;>
      (simp only [Option.some.injEq, Prod.mk.injEq] at h
       obtain ⟨-, h2⟩ := h
       subst h2
       dsimp only
       omega)

/-- `CString::new` on a byte string: fails (the caller's `.unwrap()` then
panics) exactly when the bytes contain an interior NUL; otherwise appends
the terminating NUL. -/
def cstring_new (bytes : List Nat) : Option (List Nat) :=
  if bytes.contains 0 then none else some (bytes ++ [0])

/-- `Tactic::new`: convert the name through `CString::new(...).unwrap()`
(`none` models the panic), call `Z3_mk_tactic`, and wrap the result
unconditionally (the source performs no null check). -/
def Tactic.new (n : Z3Native) (rc : RefCounts) (ctx : Ctx) (name : List Nat) :
    Option (RefCounts × Tactic) :=
  match cstring_new name with
  | none => none
  | some tactic_name =>
    let tactic := n.mk_tactic ctx tactic_name
    some (Tactic.wrap rc ctx tactic)

/-- `Duration` (seconds and subsecond nanoseconds). -/
structure Duration where
  secs : Nat
  nanos : Nat
  deriving DecidableEq, Repr

/-- `Duration::as_millis`. -/
def Duration.as_millis (d : Duration) : Nat :=
  d.secs * 1000 + d.nanos / 1000000

/-- `c_uint::MAX` (32-bit unsigned maximum). -/
def cuintMax : Nat := 4294967295

/-- `c_uint::try_from` on an unbounded integer: succeeds exactly when the
value fits. -/
def cuint_try_from (x : Nat) : Option Nat :=
  if x ≤ cuintMax then some x else none

/-- `Tactic::try_for`: convert the duration to milliseconds, clamp to
`c_uint::MAX` on overflow via `.unwrap_or(c_uint::MAX)`, and wrap the
tactic returned by `Z3_tactic_try_for`. -/
def Tactic.try_for (n : Z3Native) (rc : RefCounts) (t : Tactic) (timeout : Duration) :
    RefCounts × Tactic :=
  let timeout_ms := (cuint_try_from timeout.as_millis).getD cuintMax
  Tactic.wrap rc t.ctx (n.tactic_try_for t.ctx t.z3_tactic timeout_ms)

/-- The fixed fallback text used by `Tactic::apply` when the engine's error
message bytes are not valid UTF-8. -/
def errFallback : String := "Couldn\x27t retrieve error message from z3: got invalid UTF-8"

/-- The raw pointer returned by the native apply call inside
`Tactic::apply` (`Z3_tactic_apply` or `Z3_tactic_apply_ex` depending on
`params`). -/
def tacticApplyRaw (n : Z3Native) (t : Tactic) (goal : Goal) (params : Option Params) : Ptr :=
  match params with
  | none => n.tactic_apply t.ctx t.z3_tactic goal.z3_goal
  | some ps => n.tactic_apply_ex t.ctx t.z3_tactic goal.z3_goal ps.z3_params

/-- `Tactic::apply`: on a null result, read the engine's last error code
and message and return `Err` with the decoded text (or the fixed fallback
on a UTF-8 decode failure); otherwise wrap the result in `Ok`. -/
def Tactic.apply (n : Z3Native) (rc : RefCounts) (t : Tactic) (goal : Goal)
    (params : Option Params) : RefCounts × Except String ApplyResult :=
  let z3_apply_result := tacticApplyRaw n t goal params
  if z3_apply_result = 0 then
    let code := n.get_error_code t.ctx
    let msg := n.get_error_msg t.ctx code
    (rc, Except.error (msg.getD errFallback))
  else
    let (rc', a) := ApplyResult.wrap rc t.ctx z3_apply_result
    (rc', Except.ok a)

/-- Wrap the subgoals at native indices `i, i+1, ..., i+k-1` of the
apply-result, in order, threading the reference-count state. -/
def wrapSubgoals (n : Z3Native) (a : ApplyResult) :
    Nat → Nat → RefCounts → RefCounts × List Goal
  | _, 0, rc => (rc, [])
  | i, k + 1, rc =>
    let (rc', g) := Goal.wrap rc a.ctx (n.apply_result_get_subgoal a.ctx a.z3_apply_result i)
    let (rc'', gs) := wrapSubgoals n a (i + 1) k rc'
    (rc'', g :: gs)

/-- `ApplyResult::list_subgoals`: read the subgoal count once, then wrap
each subgoal at indices `0..num_subgoals` in native order (the source
builds the same sequence lazily with a `map` over the range; it is
materialized here). -/
def ApplyResult.list_subgoals (n : Z3Native) (rc : RefCounts) (a : ApplyResult) :
    RefCounts × List Goal :=
  let num_subgoals := n.apply_result_get_num_subgoals a.ctx a.z3_apply_result
  wrapSubgoals n a 0 num_subgoals rc

theorem bump_apply_self (f : Ctx → Ptr → Int) (c : Ctx) (p : Ptr) (d : Int) :
    bump f c p d c p = f c p + d := by
  simp [bump]

theorem bump_apply_ne (f : Ctx → Ptr → Int) (c : Ctx) (p : Ptr) (d : Int)
    (c' : Ctx) (p' : Ptr) (h : ¬(c' = c ∧ p' = p)) :
    bump f c p d c' p' = f c' p' := by
  simp [bump, h]

theorem bump_bump_cancel (f : Ctx → Ptr → Int) (c : Ctx) (p : Ptr) (d : Int) :
    bump (bump f c p d) c p (-d) = f := by
  funext c' p'
  by_cases h : c' = c ∧ p' = p <;> simp [bump, h]

theorem modelWrapDrop_id (c : Ctx) (p : Ptr) (rc : RefCounts) :
    Model.wrapDrop c p rc = rc := by
  simp [Model.wrapDrop, Model.wrap, Model.drop, bump_bump_cancel]

theorem tacticWrapDrop_id (c : Ctx) (p : Ptr) (rc : RefCounts) :
    Tactic.wrapDrop c p rc = rc := by
  simp [Tactic.wrapDrop, Tactic.wrap, Tactic.drop, bump_bump_cancel]

theorem applyResultWrapDrop_id (c : Ctx) (p : Ptr) (rc : RefCounts) :
    ApplyResult.wrapDrop c p rc = rc := by
  simp [ApplyResult.wrapDrop, ApplyResult.wrap, ApplyResult.drop, bump_bump_cancel]

theorem wrapSubgoals_snd (n : Z3Native) (a : ApplyResult) :
    ∀ (k i : Nat) (rc : RefCounts),
      (wrapSubgoals n a i k rc).2 =
        (List.range k).map
          (fun j => (⟨a.ctx, n.apply_result_get_subgoal a.ctx a.z3_apply_result (i + j)⟩ : Goal))
  | 0, _, _ => by simp [wrapSubgoals]
  | k + 1, i, rc => by
    rw [List.range_succ_eq_map]
    simp only [wrapSubgoals, Goal.wrap, List.map_cons, List.map_map]
    rw [wrapSubgoals_snd n a k (i + 1)]
    congr 1
    apply List.map_congr_left
    intro j _
    simp only [Function.comp_apply]
    have hj : i + 1 + j = i + (j + 1) := by omega
    rw [hj]

/-- The list half of `ApplyResult::list_subgoals`: the subgoals at native
indices `0..num_subgoals`, in order, each wrapped with the result's
context. -/
theorem list_subgoals_snd (n : Z3Native) (rc : RefCounts) (a : ApplyResult) :
    (ApplyResult.list_subgoals n rc a).2 =
      (List.range (n.apply_result_get_num_subgoals a.ctx a.z3_apply_result)).map
        (fun i => (⟨a.ctx, n.apply_result_get_subgoal a.ctx a.z3_apply_result i⟩ : Goal)) := by
  unfold ApplyResult.list_subgoals
  rw [wrapSubgoals_snd]
  simp

theorem goalRC_wrap_le (rc : RefCounts) (c0 : Ctx) (p0 : Ptr) (c : Ctx) (p : Ptr) :
    rc.goalRC c p ≤ (Goal.wrap rc c0 p0).1.goalRC c p := by
  by_cases h : c = c0 ∧ p = p0
  · simp [Goal.wrap, bump, h]
  · simp [Goal.wrap, bump_apply_ne _ _ _ _ _ _ h]

theorem wrapSubgoals_goalRC_mono (n : Z3Native) (a : ApplyResult) :
    ∀ (k i : Nat) (rc : RefCounts) (c : Ctx) (p : Ptr),
      rc.goalRC c p ≤ (wrapSubgoals n a i k rc).1.goalRC c p
  | 0, _, _, _, _ => le_refl _
  | k + 1, i, rc, c, p => by
    simp only [wrapSubgoals]
    exact le_trans (goalRC_wrap_le rc _ _ c p)
      (wrapSubgoals_goalRC_mono n a k (i + 1) _ c p)

theorem wrapSubgoals_mem_goalRC (n : Z3Native) (a : ApplyResult) :
    ∀ (k i : Nat) (rc : RefCounts) (g : Goal),
      g ∈ (wrapSubgoals n a i k rc).2 →
      rc.goalRC g.ctx g.z3_goal + 1 ≤ (wrapSubgoals n a i k rc).1.goalRC g.ctx g.z3_goal
  | 0, _, _, _ => by simp [wrapSubgoals]
  | k + 1, i, rc, g => by
    intro hmem
    simp only [wrapSubgoals, List.mem_cons] at hmem ⊢
    rcases hmem with hg | hg
    · subst hg
      refine le_trans ?_ (wrapSubgoals_goalRC_mono n a k (i + 1) _ _ _)
      simp [Goal.wrap, bump_apply_self]
    · refine le_trans ?_ (wrapSubgoals_mem_goalRC n a k (i + 1) _ g hg)
      have := goalRC_wrap_le rc a.ctx
        (n.apply_result_get_subgoal a.ctx a.z3_apply_result i) g.ctx g.z3_goal
      omega

/-- C1: Every handle construction in these two files (`Model::wrap`,
`Tactic::wrap`, `ApplyResult::wrap`) performs exactly one native
reference-count increment on the wrapped (context, pointer) pair — the
count there rises by exactly one and every other counter entry is
untouched — every `Drop` performs exactly one decrement, and constructing
then immediately dropping `n` handles to the same underlying native object
leaves the engine's reference counts exactly as they were. -/
theorem refcount_discipline (rc : RefCounts) (c : Ctx) (p : Ptr) (n : Nat) :
    ((Model.wrap rc c p).1.modelRC c p = rc.modelRC c p + 1 ∧
      (∀ c' p', ¬(c' = c ∧ p' = p) →
        (Model.wrap rc c p).1.modelRC c' p' = rc.modelRC c' p') ∧
      (Model.wrap rc c p).1.tacticRC = rc.tacticRC ∧
      (Model.wrap rc c p).1.applyResultRC = rc.applyResultRC ∧
      (Model.wrap rc c p).1.goalRC = rc.goalRC ∧
      (Model.drop rc ⟨c, p⟩).modelRC c p = rc.modelRC c p - 1) ∧
    ((Tactic.wrap rc c p).1.tacticRC c p = rc.tacticRC c p + 1 ∧
      (∀ c' p', ¬(c' = c ∧ p' = p) →
        (Tactic.wrap rc c p).1.tacticRC c' p' = rc.tacticRC c' p') ∧
      (Tactic.wrap rc c p).1.modelRC = rc.modelRC ∧
      (Tactic.drop rc ⟨c, p⟩).tacticRC c p = rc.tacticRC c p - 1) ∧
    ((ApplyResult.wrap rc c p).1.applyResultRC c p = rc.applyResultRC c p + 1 ∧
      (∀ c' p', ¬(c' = c ∧ p' = p) →
        (ApplyResult.wrap rc c p).1.applyResultRC c' p' = rc.applyResultRC c' p') ∧
      (ApplyResult.drop rc ⟨c, p⟩).applyResultRC c p = rc.applyResultRC c p - 1) ∧
    (Model.wrapDrop c p)^[n] rc = rc ∧
    (Tactic.wrapDrop c p)^[n] rc = rc ∧
    (ApplyResult.wrapDrop c p)^[n] rc = rc := by
  refine ⟨⟨?_, ?_, rfl, rfl, rfl, ?_⟩, ⟨?_, ?_, rfl, ?_⟩, ⟨?_, ?_, ?_⟩, ?_, ?_, ?_⟩
  · simp [Model.wrap, bump_apply_self]
  · intro c' p' h; simp [Model.wrap, bump_apply_ne _ _ _ _ _ _ h]
  · simp [Model.drop, bump_apply_self]; ring
  · simp [Tactic.wrap, bump_apply_self]
  · intro c' p' h; simp [Tactic.wrap, bump_apply_ne _ _ _ _ _ _ h]
  · simp [Tactic.drop, bump_apply_self]; ring
  · simp [ApplyResult.wrap, bump_apply_self]
  · intro c' p' h; simp [ApplyResult.wrap, bump_apply_ne _ _ _ _ _ _ h]
  · simp [ApplyResult.drop, bump_apply_self]; ring
  · induction n with
    | zero => rfl
    | succ k ih => rw [Function.iterate_succ_apply, modelWrapDrop_id, ih]
  · induction n with
    | zero => rfl
    | succ k ih => rw [Function.iterate_succ_apply, tacticWrapDrop_id, ih]
  · induction n with
    | zero => rfl
    | succ k ih => rw [Function.iterate_succ_apply, applyResultWrapDrop_id, ih]

/-- Witness for C1: evaluate the discipline at a concrete state and key. -/
theorem refcount_discipline_witness :
    ((Model.wrapDrop 1 2)^[3] rc0 = rc0) :=
  (refcount_discipline rc0 1 2 3).2.2.2.1

/-- C2 counterexample: with an oracle whose `Z3_mk_tactic` call answers
with the null pointer, `Tactic::new` on the perfectly valid one-byte name
`[110]` returns a live tactic handle whose wrapped raw pointer is null —
it does not surface the failure as an absent value. -/
theorem tactic_new_wraps_null :
    ∃ rct : RefCounts × Tactic,
      Tactic.new zeroNative rc0 0 [110] = some rct ∧ rct.2.z3_tactic = 0 :=
  ⟨Tactic.wrap rc0 0 0, rfl, rfl⟩

/-- C2 (amended): `Model::of_solver` and `Model::of_optimize` do check the
returned native pointer and surface a null as `None`, and any model handle
they return wraps a non-null pointer; but `Model::translate`,
`Tactic::new` and the `Goal` wrapping inside
`ApplyResult::list_subgoals` perform no null check at all and wrap
whatever pointer the native call returns, null included. -/
theorem null_check_behavior (n : Z3Native) (rc : RefCounts) (slv : Solver)
    (opt : Optimize) (m : Model) (dest : Ctx) (ctx : Ctx) (name : List Nat)
    (a : ApplyResult) :
    ((Model.of_solver n rc slv).2 = none ↔ n.solver_get_model slv.ctx slv.z3_slv = 0) ∧
    (∀ rc' h, Model.of_solver n rc slv = (rc', some h) → h.z3_mdl ≠ 0) ∧
    ((Model.of_optimize n rc opt).2 = none ↔ n.optimize_get_model opt.ctx opt.z3_opt = 0) ∧
    (∀ rc' h, Model.of_optimize n rc opt = (rc', some h) → h.z3_mdl ≠ 0) ∧
    (Model.translate n rc m dest).2 = ⟨dest, n.model_translate m.ctx m.z3_mdl dest⟩ ∧
    (name.contains 0 = false →
      Tactic.new n rc ctx name = some (Tactic.wrap rc ctx (n.mk_tactic ctx (name ++ [0])))) ∧
    (ApplyResult.list_subgoals n rc a).2 =
      (List.range (n.apply_result_get_num_subgoals a.ctx a.z3_apply_result)).map
        (fun i => (⟨a.ctx, n.apply_result_get_subgoal a.ctx a.z3_apply_result i⟩ : Goal)) := by
  refine ⟨?_, ?_, ?_, ?_, ?_, ?_, ?_⟩
  · by_cases h0 : n.solver_get_model slv.ctx slv.z3_slv = 0
    · simp [Model.of_solver, h0]
    · simp [Model.of_solver, h0, Model.wrap]
  · intro rc' h hyp
    by_cases h0 : n.solver_get_model slv.ctx slv.z3_slv = 0
    · simp [Model.of_solver, h0] at hyp
    · simp [Model.of_solver, h0, Model.wrap] at hyp
      obtain ⟨-, hh⟩ := hyp
      subst hh
      simpa using h0
  · by_cases h0 : n.optimize_get_model opt.ctx opt.z3_opt = 0
    · simp [Model.of_optimize, h0]
    · simp [Model.of_optimize, h0, Model.wrap]
  · intro rc' h hyp
    by_cases h0 : n.optimize_get_model opt.ctx opt.z3_opt = 0
    · simp [Model.of_optimize, h0] at hyp
    · simp [Model.of_optimize, h0, Model.wrap] at hyp
      obtain ⟨-, hh⟩ := hyp
      subst hh
      simpa using h0
  · rfl
  · intro hname
    have hmem : 0 ∉ name := by simpa using hname
    simp [Tactic.new, cstring_new, hmem]
  · exact list_subgoals_snd n rc a

/-- Witness for C2 (amended): the null-check of `of_solver` and the
unconditional wrap of `Tactic::new`, evaluated on the all-null oracle. -/
theorem null_check_behavior_witness :
    (Model.of_solver zeroNative rc0 ⟨0, 1⟩).2 = none ∧
      Tactic.new zeroNative rc0 0 [110] =
        some (Tactic.wrap rc0 0 (zeroNative.mk_tactic 0 ([110] ++ [0]))) :=
  ⟨(null_check_behavior zeroNative rc0 ⟨0, 1⟩ ⟨0, 1⟩ ⟨0, 1⟩ 0 0 [110] ⟨0, 1⟩).1.mpr rfl,
   (null_check_behavior zeroNative rc0 ⟨0, 1⟩ ⟨0, 1⟩ ⟨0, 1⟩ 0 0 [110] ⟨0, 1⟩).2.2.2.2.2.1 rfl⟩

/-- C6: `Tactic::apply` returns `Err` exactly when the native apply call
returns the null pointer; the `Err` carries the engine's last-error
message when it decodes as UTF-8 and the fixed fallback string otherwise,
and a non-null result is returned as `Ok` around the wrapped
`ApplyResult`. -/
theorem tactic_apply_spec (n : Z3Native) (rc : RefCounts) (t : Tactic) (goal : Goal)
    (params : Option Params) :
    ((∃ e, (Tactic.apply n rc t goal params).2 = Except.error e) ↔
      tacticApplyRaw n t goal params = 0) ∧
    (tacticApplyRaw n t goal params = 0 →
      Tactic.apply n rc t goal params =
        (rc, Except.error
          ((n.get_error_msg t.ctx (n.get_error_code t.ctx)).getD errFallback))) ∧
    (∀ s, n.get_error_msg t.ctx (n.get_error_code t.ctx) = some s →
      tacticApplyRaw n t goal params = 0 →
      (Tactic.apply n rc t goal params).2 = Except.error s) ∧
    (n.get_error_msg t.ctx (n.get_error_code t.ctx) = none →
      tacticApplyRaw n t goal params = 0 →
      (Tactic.apply n rc t goal params).2 = Except.error errFallback) ∧
    (tacticApplyRaw n t goal params ≠ 0 →
      Tactic.apply n rc t goal params =
        ((ApplyResult.wrap rc t.ctx (tacticApplyRaw n t goal params)).1,
         Except.ok (ApplyResult.wrap rc t.ctx (tacticApplyRaw n t goal params)).2)) := by
  refine ⟨?_, ?_, ?_, ?_, ?_⟩
  · by_cases h0 : tacticApplyRaw n t goal params = 0
    · simp [Tactic.apply, h0]
    · simp [Tactic.apply, h0, ApplyResult.wrap]
  · intro h0
    simp [Tactic.apply, h0]
  · intro s hs h0
    simp [Tactic.apply, h0, hs]
  · intro hn h0
    simp [Tactic.apply, h0, hn]
  · intro h0
    simp [Tactic.apply, h0, ApplyResult.wrap]

/-- Witness for C6: on the all-null oracle the apply call fails and the
message slot does not decode, so the fixed fallback string is returned. -/
theorem tactic_apply_spec_witness :
    (Tactic.apply zeroNative rc0 ⟨0, 3⟩ ⟨0, 4⟩ none).2 = Except.error errFallback :=
  (tactic_apply_spec zeroNative rc0 ⟨0, 3⟩ ⟨0, 4⟩ none).2.2.2.1 rfl rfl

/-- C7: `Tactic::try_for` converts the duration to milliseconds and, when
that count exceeds `c_uint::MAX`, clamps it to `c_uint::MAX` (the call
still succeeds and wraps a tactic); within range the exact millisecond
count is passed through.  The conversion used is precisely
`min as_millis c_uint::MAX`. -/
theorem try_for_clamp (n : Z3Native) (rc : RefCounts) (t : Tactic) (d : Duration) :
    (d.as_millis ≤ cuintMax →
      Tactic.try_for n rc t d =
        Tactic.wrap rc t.ctx (n.tactic_try_for t.ctx t.z3_tactic d.as_millis)) ∧
    (cuintMax < d.as_millis →
      Tactic.try_for n rc t d =
        Tactic.wrap rc t.ctx (n.tactic_try_for t.ctx t.z3_tactic cuintMax)) ∧
    (cuint_try_from d.as_millis).getD cuintMax = min d.as_millis cuintMax := by
  refine ⟨?_, ?_, ?_⟩
  · intro hle
    unfold Tactic.try_for cuint_try_from
    simp [hle]
  · intro hlt
    unfold Tactic.try_for cuint_try_from
    simp [Nat.not_le.mpr hlt]
  · unfold cuint_try_from
    split <;> simp <;> omega

/-- Witness for C7: a 50-day duration overflows the 32-bit millisecond
range and is clamped to `c_uint::MAX`. -/
theorem try_for_clamp_witness :
    Tactic.try_for zeroNative rc0 ⟨0, 3⟩ ⟨5000000, 0⟩ =
      Tactic.wrap rc0 0 (zeroNative.tactic_try_for 0 3 cuintMax) :=
  (try_for_clamp zeroNative rc0 ⟨0, 3⟩ ⟨5000000, 0⟩).2.1 (by decide)

/-- C9: `Tactic::new` panics (the `unwrap` on `CString::new`) exactly when
the requested name contains an embedded NUL byte; on every NUL-free name
the conversion succeeds, the panic branch is unreachable, and a tactic
handle is returned. -/
theorem tactic_new_nul_panic (n : Z3Native) (rc : RefCounts) (ctx : Ctx)
    (name : List Nat) :
    (name.contains 0 = true → Tactic.new n rc ctx name = none) ∧
    (name.contains 0 = false →
      Tactic.new n rc ctx name =
        some (Tactic.wrap rc ctx (n.mk_tactic ctx (name ++ [0])))) := by
  constructor
  · intro h
    have hmem : 0 ∈ name := by simpa using h
    simp [Tactic.new, cstring_new, hmem]
  · intro h
    have hmem : 0 ∉ name := by simpa using h
    simp [Tactic.new, cstring_new, hmem]

/-- Witness for C9: a name with an embedded NUL panics; a NUL-free name
yields a handle. -/
theorem tactic_new_nul_panic_witness :
    Tactic.new zeroNative rc0 0 [97, 0, 98] = none ∧
      Tactic.new zeroNative rc0 0 [97, 98] =
        some (Tactic.wrap rc0 0 (zeroNative.mk_tactic 0 ([97, 98] ++ [0]))) :=
  ⟨(tactic_new_nul_panic zeroNative rc0 0 [97, 0, 98]).1 rfl,
   (tactic_new_nul_panic zeroNative rc0 0 [97, 98]).2 rfl⟩

/-- C10: whenever declaration resolution (`Ast::safe_decl`) fails on the
given expression, `Model::get_const_interp` returns `None` — the
resolution error becomes an absent value instead of propagating. -/
theorem get_const_interp_decl_failure (n : Z3Native) (m : Model) (ast : AstH)
    (h : n.ast_safe_decl ast.z3_ast = none) :
    Model.get_const_interp n m ast = none := by
  unfold Model.get_const_interp
  rw [h]

/-- Witness for C10: the all-null oracle resolves no declaration, so the
lookup is absent. -/
theorem get_const_interp_decl_failure_witness :
    Model.get_const_interp zeroNative ⟨0, 1⟩ ⟨0, 2⟩ = none :=
  get_const_interp_decl_failure zeroNative ⟨0, 1⟩ ⟨0, 2⟩ rfl

/-- C8: `ApplyResult::list_subgoals` consumes the apply-result by value
and produces the subgoals at native indices `0..num_subgoals` (count read
once at the call) in native order, each wrapped as its own
reference-counted `Goal` handle: even after the `ApplyResult` itself is
dropped, every produced goal still holds the reference-count claim taken
for it, so its count sits strictly above what it was before the call. -/
theorem list_subgoals_independent (n : Z3Native) (rc : RefCounts) (a : ApplyResult) :
    (ApplyResult.list_subgoals n rc a).2 =
      (List.range (n.apply_result_get_num_subgoals a.ctx a.z3_apply_result)).map
        (fun i => (⟨a.ctx, n.apply_result_get_subgoal a.ctx a.z3_apply_result i⟩ : Goal)) ∧
    (ApplyResult.list_subgoals n rc a).2.length =
      n.apply_result_get_num_subgoals a.ctx a.z3_apply_result ∧
    ∀ g ∈ (ApplyResult.list_subgoals n rc a).2,
      rc.goalRC g.ctx g.z3_goal + 1 ≤
        (ApplyResult.drop (ApplyResult.list_subgoals n rc a).1 a).goalRC g.ctx g.z3_goal := by
  refine ⟨list_subgoals_snd n rc a, ?_, ?_⟩
  · rw [list_subgoals_snd]
    simp
  · intro g hg
    exact wrapSubgoals_mem_goalRC n a _ 0 rc g hg

/-- A concrete oracle reporting exactly one subgoal, at pointer `5`. -/
def oneSubNative : Z3Native :=
  { zeroNative with
    apply_result_get_num_subgoals := fun _ _ => 1
    apply_result_get_subgoal := fun _ _ i => 5 + i }

/-- Witness for C8: the single produced goal of a concrete apply-result
keeps a positive reference-count claim after the apply-result is dropped. -/
theorem list_subgoals_independent_witness :
    rc0.goalRC 0 5 + 1 ≤
      (ApplyResult.drop (ApplyResult.list_subgoals oneSubNative rc0 ⟨0, 9⟩).1
        ⟨0, 9⟩).goalRC 0 5 :=
  (list_subgoals_independent oneSubNative rc0 ⟨0, 9⟩).2.2 ⟨0, 5⟩ (by decide)

/-- C4: case analysis of `Model::get_func_interp` (with one unit of fuel
per source-level call): for arity > 0 the tabulated native function
interpretation is returned when present and `None` when the native lookup
is null; for arity 0 the constant interpretation is inspected instead —
absent constant, a non-array range sort, or an array value that is not
as-array all yield `None`, and an array-sorted as-array value resolves
recursively to the interpretation of the underlying declaration. -/
theorem get_func_interp_cases (n : Z3Native) (m : Model) (f : FuncDecl) (fuel : Nat) :
    (n.func_decl_arity f.z3_func_decl ≠ 0 →
      Model.get_func_interp_fuel n m (fuel + 1) f =
        some (if n.model_get_func_interp m.ctx m.z3_mdl f.z3_func_decl = 0 then none
              else some ⟨m.ctx, n.model_get_func_interp m.ctx m.z3_mdl f.z3_func_decl⟩)) ∧
    (n.func_decl_arity f.z3_func_decl = 0 →
      n.model_get_const_interp m.ctx m.z3_mdl f.z3_func_decl = 0 →
      Model.get_func_interp_fuel n m (fuel + 1) f = some none) ∧
    (n.func_decl_arity f.z3_func_decl = 0 →
      n.model_get_const_interp m.ctx m.z3_mdl f.z3_func_decl ≠ 0 →
      n.get_sort_kind m.ctx (n.get_range m.ctx f.z3_func_decl) ≠ SortKind.array →
      Model.get_func_interp_fuel n m (fuel + 1) f = some none) ∧
    (n.func_decl_arity f.z3_func_decl = 0 →
      n.model_get_const_interp m.ctx m.z3_mdl f.z3_func_decl ≠ 0 →
      n.get_sort_kind m.ctx (n.get_range m.ctx f.z3_func_decl) = SortKind.array →
      n.is_as_array m.ctx (n.model_get_const_interp m.ctx m.z3_mdl f.z3_func_decl) = false →
      Model.get_func_interp_fuel n m (fuel + 1) f = some none) ∧
    (n.func_decl_arity f.z3_func_decl = 0 →
      n.model_get_const_interp m.ctx m.z3_mdl f.z3_func_decl ≠ 0 →
      n.get_sort_kind m.ctx (n.get_range m.ctx f.z3_func_decl) = SortKind.array →
      n.is_as_array m.ctx (n.model_get_const_interp m.ctx m.z3_mdl f.z3_func_decl) = true →
      Model.get_func_interp_fuel n m (fuel + 1) f =
        Model.get_func_interp_fuel n m fuel
          ⟨m.ctx, n.get_as_array_func_decl m.ctx
            (n.model_get_const_interp m.ctx m.z3_mdl f.z3_func_decl)⟩) := by
  refine ⟨?_, ?_, ?_, ?_, ?_⟩
  · intro ha
    simp only [Model.get_func_interp_fuel, if_neg ha]
    rw [apply_ite Option.some]
  · intro ha hc
    simp [Model.get_func_interp_fuel, ha, hc]
  · intro ha hc hk
    cases hs : n.get_sort_kind m.ctx (n.get_range m.ctx f.z3_func_decl) <;>
      simp_all [Model.get_func_interp_fuel]
  · intro ha hc hk hb
    simp [Model.get_func_interp_fuel, ha, hc, hk, hb]
  · intro ha hc hk hb
    simp [Model.get_func_interp_fuel, ha, hc, hk, hb]

/-- A concrete oracle with a binary declaration tabulated at pointer `9`. -/
def arityNative : Z3Native :=
  { zeroNative with
    func_decl_arity := fun _ => 2
    model_get_func_interp := fun _ _ _ => 9 }

/-- Witness for C4: on a concrete arity-2 declaration the tabulated
interpretation is returned. -/
theorem get_func_interp_cases_witness :
    Model.get_func_interp_fuel arityNative ⟨0, 1⟩ 1 ⟨0, 2⟩ = some (some ⟨0, 9⟩) := by
  have h := (get_func_interp_cases arityNative ⟨0, 1⟩ ⟨0, 2⟩ 0).1 (by decide)
  simpa using h

theorem recursesTo_none_isSome (n : Z3Native) (m : Model) (f : FuncDecl) (fuel : Nat)
    (h : recursesTo n m f = none) :
    (Model.get_func_interp_fuel n m (fuel + 1) f).isSome = true := by
  unfold recursesTo at h
  by_cases ha : n.func_decl_arity f.z3_func_decl = 0
  · rw [if_pos ha] at h
    by_cases hc : n.model_get_const_interp m.ctx m.z3_mdl f.z3_func_decl = 0
    · simp [Model.get_func_interp_fuel, ha, hc]
    · rw [if_neg hc] at h
      cases hs : n.get_sort_kind m.ctx (n.get_range m.ctx f.z3_func_decl) <;>
        simp_all [Model.get_func_interp_fuel]
  · simp [Model.get_func_interp_fuel, ha]
    split <;> simp

theorem recursesTo_some_step (n : Z3Native) (m : Model) (f f' : FuncDecl) (fuel : Nat)
    (h : recursesTo n m f = some f') :
    Model.get_func_interp_fuel n m (fuel + 1) f = Model.get_func_interp_fuel n m fuel f' := by
  unfold recursesTo at h
  by_cases ha : n.func_decl_arity f.z3_func_decl = 0
  · rw [if_pos ha] at h
    by_cases hc : n.model_get_const_interp m.ctx m.z3_mdl f.z3_func_decl = 0
    · simp [hc] at h
    · rw [if_neg hc] at h
      cases hs : n.get_sort_kind m.ctx (n.get_range m.ctx f.z3_func_decl) <;>
        simp_all [Model.get_func_interp_fuel]
  · simp [ha] at h

/-- C5: the as-array recursion of `Model::get_func_interp` has no cycle
guard, and its termination is exactly the finiteness of the
engine-provided as-array chain: whenever the chain from `f` reaches a
non-recursing declaration within `k` steps, a budget of `k + 1`
source-level calls suffices for the function to return; and on the
concrete engine `cyclicNative`, whose as-array chain is a self-loop, no
finite budget ever suffices — the source function never returns. -/
theorem as_array_recursion_termination :
    (∀ (n : Z3Native) (m : Model) (k : Nat) (f : FuncDecl),
      chainStops n m k f = true →
      (Model.get_func_interp_fuel n m (k + 1) f).isSome = true) ∧
    (∀ fuel : Nat,
      Model.get_func_interp_fuel cyclicNative ⟨0, 1⟩ fuel ⟨0, 7⟩ = none) := by
  constructor
  · intro n m k
    induction k with
    | zero =>
      intro f hstop
      simp only [chainStops, Option.isNone_iff_eq_none] at hstop
      exact recursesTo_none_isSome n m f 0 hstop
    | succ k ih =>
      intro f hstop
      simp only [chainStops] at hstop
      cases hr : recursesTo n m f with
      | none => exact recursesTo_none_isSome n m f (k + 1) hr
      | some f' =>
        rw [hr] at hstop
        rw [recursesTo_some_step n m f f' (k + 1) hr]
        exact ih f' hstop
  · intro fuel
    induction fuel with
    | zero => rfl
    | succ fuel ih =>
      have hstep : recursesTo cyclicNative ⟨0, 1⟩ ⟨0, 7⟩ = some ⟨0, 7⟩ := by
        simp [recursesTo, cyclicNative, zeroNative]
      rw [recursesTo_some_step cyclicNative ⟨0, 1⟩ ⟨0, 7⟩ ⟨0, 7⟩ fuel hstep]
      exact ih

/-- Witness for C5: on the all-null oracle the chain from any declaration
stops immediately, and one unit of budget makes the lookup return. -/
theorem as_array_recursion_termination_witness :
    (Model.get_func_interp_fuel zeroNative ⟨0, 1⟩ 1 ⟨0, 2⟩).isSome = true :=
  as_array_recursion_termination.1 zeroNative ⟨0, 1⟩ 0 ⟨0, 2⟩ (by decide)

theorem ModelIter.next_some (n : Z3Native) (it : ModelIter) (d : FuncDecl)
    (it' : ModelIter) (h : ModelIter.next n it = some (d, it')) :
    it.idx < it.len ∧ it'.idx = it.idx + 1 ∧ it'.len = it.len ∧ it'.model = it.model := by
  simp only [ModelIter.next] at h
  split at h
  · cases h
  · split at h <;>
      (simp only [Option.some.injEq, Prod.mk.injEq] at h
       obtain ⟨-, h2⟩ := h
       subst h2
       exact ⟨by omega, rfl, rfl, rfl⟩)

theorem ModelIter.run_next_none (f : Nat → Z3Native) (k : Nat) (it : ModelIter)
    (h : ModelIter.next (f k) it = none) : ModelIter.run f k it = [] := by
  rw [ModelIter.run]
  split
  · rfl
  · rename_i d it' h'
    rw [h] at h'
    cases h'

theorem ModelIter.run_next_some (f : Nat → Z3Native) (k : Nat) (it : ModelIter)
    (d : FuncDecl) (it' : ModelIter) (h : ModelIter.next (f k) it = some (d, it')) :
    ModelIter.run f k it = d :: ModelIter.run f (k + 1) it' := by
  rw [ModelIter.run]
  split
  · rename_i h'
    rw [h] at h'
    cases h'
  · rename_i d0 it0 h'
    rw [h] at h'
    simp only [Option.some.injEq, Prod.mk.injEq] at h'
    obtain ⟨h1, h2⟩ := h'
    rw [h1, h2]

theorem run_length_aux (b : Nat) :
    ∀ (f : Nat → Z3Native) (k : Nat) (it : ModelIter), it.len - it.idx ≤ b →
      (ModelIter.run f k it).length = it.len - it.idx := by
  induction b with
  | zero =>
    intro f k it hb
    have h : ModelIter.next (f k) it = none := by
      unfold ModelIter.next
      rw [if_pos (by omega)]
    rw [ModelIter.run_next_none _ _ _ h]
    simp
    omega
  | succ b ih =>
    intro f k it hb
    cases hn : ModelIter.next (f k) it with
    | none =>
      rw [ModelIter.run_next_none _ _ _ hn]
      have hle : it.len ≤ it.idx := by
        by_contra hlt
        simp only [ModelIter.next] at hn
        rw [if_neg hlt] at hn
        split at hn <;> cases hn
      simp
      omega
    | some p =>
      obtain ⟨d, it'⟩ := p
      rw [ModelIter.run_next_some _ _ _ _ _ hn]
      obtain ⟨hlt, hidx, hlen, -⟩ := ModelIter.next_some _ _ _ _ hn
      rw [List.length_cons, ih f (k + 1) it' (by omega)]
      omega

theorem run_static_aux (n : Z3Native) (m : Model) (cs fs : List Ptr)
    (hc : n.model_get_num_consts m.ctx m.z3_mdl = cs.length)
    (hcd : ∀ i, i < cs.length → n.model_get_const_decl m.ctx m.z3_mdl i = cs.getD i 0)
    (hfd : ∀ j, j < fs.length → n.model_get_func_decl m.ctx m.z3_mdl j = fs.getD j 0) :
    ∀ (b k : Nat) (it : ModelIter), it.model = m → it.len = cs.length + fs.length →
      it.len - it.idx ≤ b →
      ModelIter.run (fun _ => n) k it =
        ((cs ++ fs).drop it.idx).map (fun p => (⟨m.ctx, p⟩ : FuncDecl)) := by
  intro b
  induction b with
  | zero =>
    intro k it hm hlen hb
    have h : ModelIter.next n it = none := by
      unfold ModelIter.next
      rw [if_pos (by omega)]
    rw [ModelIter.run_next_none (fun _ => n) k it h]
    rw [List.drop_eq_nil_of_le (by simp; omega)]
    simp
  | succ b ih =>
    intro k it hm hlen hb
    by_cases hfin : it.len ≤ it.idx
    · have h : ModelIter.next n it = none := by
        unfold ModelIter.next
        rw [if_pos hfin]
      rw [ModelIter.run_next_none (fun _ => n) k it h]
      rw [List.drop_eq_nil_of_le (by simp; omega)]
      simp
    · have hlt : it.idx < it.len := by omega
      have hcount : n.model_get_num_consts it.model.ctx it.model.z3_mdl = cs.length := by
        rw [hm, hc]
      have hbound : it.idx < (cs ++ fs).length := by
        simp
        omega
      have hdrop : (cs ++ fs).drop it.idx =
          (cs ++ fs).getD it.idx 0 :: (cs ++ fs).drop (it.idx + 1) := by
        rw [List.getD_eq_getElem _ _ hbound]
        exact List.drop_eq_getElem_cons hbound
      by_cases hcase : it.idx < cs.length
      · have hnext : ModelIter.next n it =
            some (⟨it.model.ctx, n.model_get_const_decl it.model.ctx it.model.z3_mdl it.idx⟩,
                  ⟨it.model, it.idx + 1, it.len⟩) := by
          simp only [ModelIter.next]
          rw [if_neg (by omega), hcount, if_pos hcase]
        rw [ModelIter.run_next_some _ _ _ _ _ hnext]
        rw [ih (k + 1) ⟨it.model, it.idx + 1, it.len⟩ hm hlen (by simp; omega)]
        rw [hdrop, List.map_cons]
        have hhead : (cs ++ fs).getD it.idx 0 = cs.getD it.idx 0 := by
          rw [List.getD_eq_getElem _ _ hbound, List.getD_eq_getElem cs 0 hcase]
          exact List.getElem_append_left hcase
        rw [hhead, hm, hcd it.idx hcase]
      · have hge : cs.length ≤ it.idx := by omega
        have hjlt : it.idx - cs.length < fs.length := by omega
        have hnext : ModelIter.next n it =
            some (⟨it.model.ctx,
                   n.model_get_func_decl it.model.ctx it.model.z3_mdl (it.idx - cs.length)⟩,
                  ⟨it.model, it.idx + 1, it.len⟩) := by
          simp only [ModelIter.next]
          rw [if_neg (by omega), hcount, if_neg (by omega)]
        rw [ModelIter.run_next_some _ _ _ _ _ hnext]
        rw [ih (k + 1) ⟨it.model, it.idx + 1, it.len⟩ hm hlen (by simp; omega)]
        rw [hdrop, List.map_cons]
        have hhead : (cs ++ fs).getD it.idx 0 = fs.getD (it.idx - cs.length) 0 := by
          rw [List.getD_eq_getElem _ _ hbound, List.getD_eq_getElem fs 0 hjlt]
          exact List.getElem_append_right hge
        rw [hhead, hm, hfd (it.idx - cs.length) hjlt]

/-- C3 (amended): iterating a model (`Model::iter` / `IntoIterator for
&Model`) whose native declaration tables are the lists `cs` (constants)
and `fs` (functions), provided the two native counts sum to at most
`u32::MAX` (so the source's `u32` addition in `Model::len` does not
overflow), yields exactly `numConstants + numFunctions` items — the
constant declarations at native indices `0..numConstants` first, then the
function declarations at native indices `0..numFunctions`, both in native
order — and the total count is captured eagerly when iteration starts:
pulling the iterator to exhaustion yields exactly `len - idx` items even
when the oracle gives different native answers at every pull. -/
theorem model_iter_spec :
    (∀ (n : Z3Native) (m : Model) (cs fs : List Ptr),
      n.model_get_num_consts m.ctx m.z3_mdl = cs.length →
      n.model_get_num_funcs m.ctx m.z3_mdl = fs.length →
      cs.length + fs.length ≤ cuintMax →
      (∀ i, i < cs.length → n.model_get_const_decl m.ctx m.z3_mdl i = cs.getD i 0) →
      (∀ j, j < fs.length → n.model_get_func_decl m.ctx m.z3_mdl j = fs.getD j 0) →
      ModelIter.run (fun _ => n) 0 (Model.intoIter n m) =
        (cs ++ fs).map (fun p => (⟨m.ctx, p⟩ : FuncDecl)) ∧
      (ModelIter.run (fun _ => n) 0 (Model.intoIter n m)).length =
        cs.length + fs.length) ∧
    (∀ (f : Nat → Z3Native) (k : Nat) (it : ModelIter),
      (ModelIter.run f k it).length = it.len - it.idx) := by
  constructor
  · intro n m cs fs hc hf hsum hcd hfd
    have hsum' : cs.length + fs.length < 4294967296 := by
      simp only [cuintMax] at hsum
      omega
    have hlen : (Model.intoIter n m).len = cs.length + fs.length := by
      simp only [Model.intoIter, Model.len, hc, hf, u32Mod]
      omega
    constructor
    · have h := run_static_aux n m cs fs hc hcd hfd
        ((Model.intoIter n m).len - (Model.intoIter n m).idx) 0
        (Model.intoIter n m) rfl hlen (le_refl _)
      simpa using h
    · rw [run_length_aux ((Model.intoIter n m).len - (Model.intoIter n m).idx)
        (fun _ => n) 0 (Model.intoIter n m) (le_refl _)]
      simp only [Model.intoIter, Model.len, hc, hf, u32Mod]
      omega
  · intro f k it
    exact run_length_aux (it.len - it.idx) f k it (le_refl _)

/-- A concrete oracle with two constant declarations (pointers 10, 11) and
one function declaration (pointer 20). -/
def iterNative : Z3Native :=
  { zeroNative with
    model_get_num_consts := fun _ _ => 2
    model_get_num_funcs := fun _ _ => 1
    model_get_const_decl := fun _ _ i => [10, 11].getD i 0
    model_get_func_decl := fun _ _ j => [20].getD j 0 }

/-- Witness for C3: the concrete three-declaration model iterates to
its two constants followed by its one function. -/
theorem model_iter_spec_witness :
    ModelIter.run (fun _ => iterNative) 0 (Model.intoIter iterNative ⟨0, 1⟩) =
      [⟨0, 10⟩, ⟨0, 11⟩, ⟨0, 20⟩] := by
  have h := (model_iter_spec.1 iterNative ⟨0, 1⟩ [10, 11] [20] rfl rfl (by decide)
    (by intro i hi; rfl) (by intro j hj; rfl)).1
  simpa using h

/-- A concrete oracle whose native constant and function counts (each a
valid `u32` value on its own) sum to `2^32`, overflowing the source's
`u32` addition in `Model::len`. -/
def overflowNative : Z3Native :=
  { zeroNative with
    model_get_num_consts := fun _ _ => 2147483648
    model_get_num_funcs := fun _ _ => 2147483648 }

/-- C3 counterexample: on `overflowNative` the eagerly captured length is
the wrapped `u32` sum `(2^31 + 2^31) mod 2^32 = 0`, so pulling the
iterator to exhaustion yields no items at all — not the
`numConstants + numFunctions = 2^32` items the unamended claim demands. -/
theorem model_iter_overflow :
    (ModelIter.run (fun _ => overflowNative) 0
        (Model.intoIter overflowNative ⟨0, 1⟩)).length ≠
      overflowNative.model_get_num_consts 0 1 + overflowNative.model_get_num_funcs 0 1 := by
  rw [ModelIter.run_next_none _ _ _ (by decide)]
  decide

end Z3
